import Mathlib

set_option maxRecDepth 10000

/-!
Shallow embedding of the CHIP-8 interpreter from `src/main.rs`.

Machine integers are modelled as `Nat` with explicit `% 2^w` at the points
where the Rust code performs wrapping arithmetic; Rust panics (index out of
bounds, integer under/overflow in debug) are modelled as `Except` errors.
The `minifb` window is modelled by a `window : Bool` flag (is a window
present) plus a `keyDown : Key → Bool` oracle passed to `step`; the random
byte drawn in the `Cxkk` arm is likewise a parameter of `step`.
-/

def WIDTH : Nat := 64

def HEIGHT : Nat := 32

/-- Host keys that `u8_to_key` can return (the subset of `minifb::Key` used). -/
inductive Key where
  | key1 | key2 | key3 | key4
  | q | w | e | r
  | a | s | d | f
  | z | x | c | v
deriving DecidableEq

/-- Mirror of `u8_to_key` in `src/main.rs`: CHIP-8 key code to host key, any
unknown code falls back to `Key1`. -/
def u8_to_key (key : Nat) : Key :=
  if key = 0x01 then .key1
  else if key = 0x02 then .key2
  else if key = 0x03 then .key3
  else if key = 0x0C then .key4
  else if key = 0x04 then .q
  else if key = 0x05 then .w
  else if key = 0x06 then .e
  else if key = 0x0D then .r
  else if key = 0x07 then .a
  else if key = 0x08 then .s
  else if key = 0x09 then .d
  else if key = 0x0E then .f
  else if key = 0x0A then .z
  else if key = 0x00 then .x
  else if key = 0x0B then .c
  else if key = 0x0F then .v
  else .key1

/-- Mirror of `struct Emulator`: ram (4096 bytes), 16 registers, index
register, program counter, stack pointer, 16-slot call stack, window
presence, packed 64x32 display (256 bytes), delay timer. -/
structure Emulator where
  ram : List Nat
  registers : List Nat
  register_i : Nat
  pc : Nat
  sp : Nat
  stack : List Nat
  window : Bool
  display : List Nat
  register_dt : Nat
deriving DecidableEq

/-- Mirror of `struct Sprite`. -/
structure Sprite where
  x : Nat
  y : Nat
  height : Nat
  width : Nat
  content : List Nat
deriving DecidableEq

/-- Mirror of `Emulator::default()` (window absent). -/
def emptyEmu : Emulator :=
  { ram := List.replicate 4096 0
    registers := List.replicate 16 0
    register_i := 0
    pc := 0x200
    sp := 0
    stack := List.replicate 16 0
    window := false
    display := List.replicate 256 0
    register_dt := 0 }

/-- Value of the display pixel at column `x`, row `y`: bit `7 - x % 8` of
display byte `x / 8 + y * (WIDTH / 8)`, exactly as `load_sprite` and
`convert_display_to_buffer` address the packed bitmap. -/
def getPixel (display : List Nat) (x y : Nat) : Nat :=
  (display.getD (x / 8 + y * (WIDTH / 8)) 0 >>> (7 - x % 8)) &&& 1

/-- Bit `col` (0 = leftmost) of sprite row `row`, as read by `load_sprite`:
`(content_byte >> (7 - x_offset)) & 0x1`. -/
def spriteBit (content : List Nat) (row col : Nat) : Nat :=
  (content.getD row 0 >>> (7 - col)) &&& 1

/-- One iteration of the inner `x_offset` loop of `Emulator::load_sprite`:
XOR one sprite bit into the display and update the collision flag.  The state
is the pair (display bytes, value of `registers[0xF]`).  The `% 256` models
the wrapping `u8` addition `sprite.x + x_offset`. -/
def drawBit (sx yy contentByte : Nat) (s : List Nat × Nat) (xOffset : Nat) :
    List Nat × Nat :=
  let x := (sx + xOffset) % 256 % WIDTH
  let byte_index := x / 8 + yy * (WIDTH / 8)
  let bit_position := 7 - x % 8
  let display_byte := s.1.getD byte_index 0
  let display_pixel := (display_byte >>> bit_position) &&& 1
  let sprite_pixel := (contentByte >>> (7 - xOffset)) &&& 1
  let vf := if display_pixel = 1 ∧ sprite_pixel = 1 then 1 else s.2
  (s.1.set byte_index (display_byte ^^^ (sprite_pixel <<< bit_position)), vf)

/-- The inner loop of `load_sprite` over `x_offset in 0..w`. -/
def rowFold (sx yy contentByte : Nat) (s : List Nat × Nat) (w : Nat) :
    List Nat × Nat :=
  (List.range w).foldl (drawBit sx yy contentByte) s

/-- One iteration of the outer `y_offset` loop of `load_sprite`; the `% 256`
models the wrapping `u8` addition `sprite.y + y_offset`. -/
def drawRow (spr : Sprite) (s : List Nat × Nat) (yOffset : Nat) :
    List Nat × Nat :=
  rowFold spr.x ((spr.y + yOffset) % 256 % HEIGHT) (spr.content.getD yOffset 0)
    s spr.width

/-- The outer loop of `load_sprite` over `y_offset in 0..h`. -/
def spriteFold (spr : Sprite) (s : List Nat × Nat) (h : Nat) :
    List Nat × Nat :=
  (List.range h).foldl (drawRow spr) s

/-- Mirror of `Emulator::load_sprite`: clear `registers[0xF]`, XOR the sprite
into the display, recording a collision in `registers[0xF]`. -/
def load_sprite (e : Emulator) (spr : Sprite) : Emulator :=
  { e with
    display := (spriteFold spr (e.display, 0) spr.height).1
    registers := e.registers.set 0xF (spriteFold spr (e.display, 0) spr.height).2 }

/-- First instruction byte `ram[pc]`. -/
def instrHigh (e : Emulator) : Nat := e.ram.getD e.pc 0

/-- Second instruction byte `ram[pc + 1]`. -/
def instrLow (e : Emulator) : Nat := e.ram.getD (e.pc + 1) 0

/-- The 16-bit instruction word `(high << 8) | low`. -/
def instrAt (e : Emulator) : Nat := instrHigh e <<< 8 ||| instrLow e

/-- Operand field `x`: low nibble of the first byte. -/
def xNibble (e : Emulator) : Nat := instrHigh e &&& 0x0F

/-- Operand field `y`: high nibble of the second byte. -/
def yNibble (e : Emulator) : Nat := (instrLow e &&& 0xF0) >>> 4

/-- Operand field `nnn`: the 12 low bits of the instruction. -/
def nnnOf (e : Emulator) : Nat := (instrHigh e &&& 0x0F) <<< 8 ||| instrLow e

/-- The sprite built by the `Dxyn` arm: position `(registers[x], registers[y])`,
`n = ` low nibble rows read from `ram[I .. I+n]`, 8 pixels wide. -/
def drawnSprite (e : Emulator) : Sprite :=
  { x := e.registers.getD (xNibble e) 0
    y := e.registers.getD (instrLow e >>> 4) 0
    height := instrLow e &&& 0x0F
    width := 8
    content := (e.ram.drop e.register_i).take (instrLow e &&& 0x0F) }

/-- Fatal conditions: Rust panics (slice/array index out of bounds,
`u8` underflow of `sp`) in the interpreter loop. -/
inductive StepError where
  | fetchOob (pc : Nat)
  | spriteOob (i : Nat)
  | stackOverflow (pc : Nat)
  | stackUnderflow (pc : Nat)
  | stackOob (pc : Nat)
  | ramOob (i : Nat)
deriving DecidableEq

deriving instance DecidableEq for Except

/-- The `Fx65` loop: `for i in 0..=x { registers[i] = ram[I + i] }`. -/
def loadRegs (regs ram : List Nat) (i x : Nat) : List Nat :=
  (List.range (x + 1)).foldl (fun rs k => rs.set k (ram.getD (i + k) 0)) regs

/-- The match over `instruction` in `main`, arm for arm in source order.
Returns the mutated emulator and a flag that is `true` exactly when the Rust
arm ends in `continue` (skipping the trailing `pc += 2`). -/
def execArm (kd : Key → Bool) (rb : Nat) (e : Emulator) :
    Except StepError (Emulator × Bool) :=
  if 0x6000 ≤ instrAt e ∧ instrAt e ≤ 0x6FFF then
    .ok ({ e with registers := e.registers.set (xNibble e) (instrLow e) }, false)
  else if 0xA000 ≤ instrAt e ∧ instrAt e ≤ 0xAFFF then
    .ok ({ e with register_i := nnnOf e }, false)
  else if 0xD000 ≤ instrAt e ∧ instrAt e ≤ 0xDFFF then
    if e.register_i + (instrLow e &&& 0x0F) ≤ e.ram.length then
      .ok (load_sprite e (drawnSprite e), false)
    else .error (.spriteOob e.register_i)
  else if 0x2000 ≤ instrAt e ∧ instrAt e ≤ 0x2FFF then
    if e.sp < e.stack.length then
      .ok ({ e with
        stack := e.stack.set e.sp ((e.pc + 2) % 65536)
        sp := e.sp + 1
        pc := nnnOf e }, false)
    else .error (.stackOverflow e.pc)
  else if 0x7000 ≤ instrAt e ∧ instrAt e ≤ 0x7FFF then
    .ok ({ e with registers := (e.registers.set (xNibble e)
      ((e.registers.getD (xNibble e) 0 + instrLow e) % 256)) }, false)
  else if instrAt e = 0x00EE then
    if e.sp = 0 then .error (.stackUnderflow e.pc)
    else if e.sp - 1 < e.stack.length then
      .ok ({ e with sp := e.sp - 1, pc := e.stack.getD (e.sp - 1) 0 }, true)
    else .error (.stackOob e.pc)
  else if (0xF065 ≤ instrAt e ∧ instrAt e ≤ 0xFF65) ∧ instrAt e &&& 0xFF = 0x65 then
    if e.register_i + xNibble e < e.ram.length then
      .ok ({ e with registers := loadRegs e.registers e.ram e.register_i (xNibble e) }, false)
    else .error (.ramOob e.register_i)
  else if (0xF033 ≤ instrAt e ∧ instrAt e ≤ 0xFF33) ∧ instrAt e &&& 0xFF = 0x33 then
    if e.register_i + 2 < e.ram.length then
      .ok ({ e with ram :=
        (((e.ram.set e.register_i ((e.registers.getD (xNibble e) 0 / 100) % 10)).set
          (e.register_i + 1) ((e.registers.getD (xNibble e) 0 / 10) % 10)).set
          (e.register_i + 2) (e.registers.getD (xNibble e) 0 % 10)) }, false)
    else .error (.ramOob e.register_i)
  else if (0xF029 ≤ instrAt e ∧ instrAt e ≤ 0xFF29) ∧ instrAt e &&& 0xFF = 0x29 then
    .ok ({ e with register_i := 0x50 + e.registers.getD (xNibble e) 0 * 5 }, false)
  else if (0xF007 ≤ instrAt e ∧ instrAt e ≤ 0xFF07) ∧ instrAt e &&& 0xFF = 0x07 then
    .ok ({ e with registers := e.registers.set (xNibble e) e.register_dt }, false)
  else if (0xF015 ≤ instrAt e ∧ instrAt e ≤ 0xFF15) ∧ instrAt e &&& 0xFF = 0x15 then
    .ok ({ e with register_dt := e.registers.getD (xNibble e) 0 }, false)
  else if 0x3000 ≤ instrAt e ∧ instrAt e ≤ 0x3FFF then
    .ok (if e.registers.getD (xNibble e) 0 = instrLow e then
      ({ e with pc := (e.pc + 2) % 65536 }, false) else (e, false))
  else if 0x1000 ≤ instrAt e ∧ instrAt e ≤ 0x1FFF then
    .ok ({ e with pc := nnnOf e }, true)
  else if 0xC000 ≤ instrAt e ∧ instrAt e ≤ 0xCFFF then
    .ok ({ e with registers := e.registers.set (xNibble e) (rb &&& instrLow e) }, false)
  else if (0xE09E ≤ instrAt e ∧ instrAt e ≤ 0xEF9E) ∧ instrAt e &&& 0xFF = 0x9E then
    if e.window then
      .ok (if kd (u8_to_key (e.registers.getD (xNibble e) 0)) then
        ({ e with pc := (e.pc + 2) % 65536 }, true) else (e, true))
    else .ok (e, false)
  else if (0xE0A1 ≤ instrAt e ∧ instrAt e ≤ 0xEFA1) ∧ instrAt e &&& 0xFF = 0xA1 then
    if e.window then
      .ok (if kd (u8_to_key (e.registers.getD (xNibble e) 0)) then
        (e, true) else ({ e with pc := (e.pc + 2) % 65536 }, true))
    else .ok (e, false)
  else if (0x8002 ≤ instrAt e ∧ instrAt e ≤ 0x8FF2) ∧ instrAt e &&& 0xF = 0x2 then
    .ok ({ e with registers := (e.registers.set (xNibble e)
      (e.registers.getD (xNibble e) 0 &&& e.registers.getD (yNibble e) 0)) }, false)
  else if (0x8004 ≤ instrAt e ∧ instrAt e ≤ 0x8FF4) ∧ instrAt e &&& 0xF = 0x4 then
    .ok ({ e with registers := ((e.registers.set 0xF
      (if 256 ≤ e.registers.getD (xNibble e) 0 + e.registers.getD (yNibble e) 0
       then 1 else 0)).set (xNibble e)
      ((e.registers.getD (xNibble e) 0 + e.registers.getD (yNibble e) 0) % 256)) }, false)
  else if (0x8005 ≤ instrAt e ∧ instrAt e ≤ 0x8FF5) ∧ instrAt e &&& 0xF = 0x5 then
    .ok ({ e with registers := ((e.registers.set 0xF
      (if e.registers.getD (xNibble e) 0 < e.registers.getD (yNibble e) 0
       then 0 else 1)).set (xNibble e)
      ((e.registers.getD (xNibble e) 0 + 256 - e.registers.getD (yNibble e) 0) % 256)) }, false)
  else if (0x8002 ≤ instrAt e ∧ instrAt e ≤ 0x8FF0) ∧ instrAt e &&& 0xF = 0x0 then
    .ok ({ e with registers := (e.registers.set (xNibble e)
      (e.registers.getD (yNibble e) 0)) }, false)
  else if 0x4000 ≤ instrAt e ∧ instrAt e ≤ 0x4FFF then
    .ok (if e.registers.getD (xNibble e) 0 ≠ instrLow e then
      ({ e with pc := (e.pc + 2) % 65536 }, false) else (e, false))
  else
    .ok (e, false)

/-- The instruction word is matched by one of the 21 explicit arms of the
`match` in `main` (the conditions, verbatim, in source order). -/
def matchedBy (i : Nat) : Prop :=
  (0x6000 ≤ i ∧ i ≤ 0x6FFF) ∨
  (0xA000 ≤ i ∧ i ≤ 0xAFFF) ∨
  (0xD000 ≤ i ∧ i ≤ 0xDFFF) ∨
  (0x2000 ≤ i ∧ i ≤ 0x2FFF) ∨
  (0x7000 ≤ i ∧ i ≤ 0x7FFF) ∨
  (i = 0x00EE) ∨
  ((0xF065 ≤ i ∧ i ≤ 0xFF65) ∧ i &&& 0xFF = 0x65) ∨
  ((0xF033 ≤ i ∧ i ≤ 0xFF33) ∧ i &&& 0xFF = 0x33) ∨
  ((0xF029 ≤ i ∧ i ≤ 0xFF29) ∧ i &&& 0xFF = 0x29) ∨
  ((0xF007 ≤ i ∧ i ≤ 0xFF07) ∧ i &&& 0xFF = 0x07) ∨
  ((0xF015 ≤ i ∧ i ≤ 0xFF15) ∧ i &&& 0xFF = 0x15) ∨
  (0x3000 ≤ i ∧ i ≤ 0x3FFF) ∨
  (0x1000 ≤ i ∧ i ≤ 0x1FFF) ∨
  (0xC000 ≤ i ∧ i ≤ 0xCFFF) ∨
  ((0xE09E ≤ i ∧ i ≤ 0xEF9E) ∧ i &&& 0xFF = 0x9E) ∨
  ((0xE0A1 ≤ i ∧ i ≤ 0xEFA1) ∧ i &&& 0xFF = 0xA1) ∨
  ((0x8002 ≤ i ∧ i ≤ 0x8FF2) ∧ i &&& 0xF = 0x2) ∨
  ((0x8004 ≤ i ∧ i ≤ 0x8FF4) ∧ i &&& 0xF = 0x4) ∨
  ((0x8005 ≤ i ∧ i ≤ 0x8FF5) ∧ i &&& 0xF = 0x5) ∨
  ((0x8002 ≤ i ∧ i ≤ 0x8FF0) ∧ i &&& 0xF = 0x0) ∨
  (0x4000 ≤ i ∧ i ≤ 0x4FFF)

instance (i : Nat) : Decidable (matchedBy i) := by
  unfold matchedBy; infer_instance

/-- One iteration of the interpreter loop in `main`: fetch the two
instruction bytes at `pc` (fatal if out of the 4096-byte ram), execute the
matching arm, then apply the trailing `emulator.pc += 2` unless the arm ended
in `continue`. -/
def step (kd : Key → Bool) (rb : Nat) (e : Emulator) :
    Except StepError Emulator :=
  if e.pc + 1 < 4096 then
    (execArm kd rb e).map
      (fun p => if p.2 then p.1 else { p.1 with pc := (p.1.pc + 2) % 65536 })
  else .error (.fetchOob e.pc)

/-- All CHIP-8 keys reported as not pressed. -/
def noKeys : Key → Bool := fun _ => false

/-- All CHIP-8 keys reported as pressed. -/
def allKeys : Key → Bool := fun _ => true

theorem getD_set_same {l : List Nat} {i : Nat} (v : Nat) (h : i < l.length) :
    (l.set i v).getD i 0 = v := by
  simp [List.getD_eq_getElem?_getD, List.getElem?_set_self h]

theorem getD_set_diff {l : List Nat} {i j : Nat} (v : Nat) (h : i ≠ j) :
    (l.set i v).getD j 0 = l.getD j 0 := by
  simp [List.getD_eq_getElem?_getD, List.getElem?_set_ne h]

theorem shr_and_one_eq (b p : Nat) :
    (b >>> p) &&& 1 = if b.testBit p then 1 else 0 := by
  rw [Nat.and_one_is_mod, Nat.shiftRight_eq_div_pow, Nat.testBit_to_div_mod]
  rcases Nat.mod_two_eq_zero_or_one (b / 2 ^ p) with h | h <;> simp [h]

theorem shr_and_one_le (b p : Nat) : (b >>> p) &&& 1 ≤ 1 := by
  rw [shr_and_one_eq]; split <;> omega

theorem xor_shl_same (b s p : Nat) (hs : s ≤ 1) :
    ((b ^^^ (s <<< p)) >>> p) &&& 1 = ((b >>> p) &&& 1) ^^^ s := by
  rw [shr_and_one_eq, shr_and_one_eq, Nat.testBit_xor, Nat.testBit_shiftLeft]
  interval_cases s
  · simp
  · have h1 : Nat.testBit 1 (p - p) = true := by simp [Nat.sub_self]
    cases h : b.testBit p <;> simp [h, h1]

theorem xor_shl_diff (b s p q : Nat) (hs : s ≤ 1) (h : p ≠ q) :
    ((b ^^^ (s <<< p)) >>> q) &&& 1 = (b >>> q) &&& 1 := by
  rw [shr_and_one_eq, shr_and_one_eq, Nat.testBit_xor, Nat.testBit_shiftLeft]
  have hz : (decide (q ≥ p) && s.testBit (q - p)) = false := by
    rcases Nat.lt_or_ge q p with hlt | hge
    · simp [Nat.not_le.mpr hlt]
    · have hq : 1 ≤ q - p := by omega
      have : s < 2 ^ (q - p) := by
        calc s < 2 ^ 1 := by omega
        _ ≤ 2 ^ (q - p) := Nat.pow_le_pow_right (by omega) hq
      simp [Nat.testBit_lt_two_pow this]
  rw [hz, Bool.xor_false]

theorem drawBit_fst (sx yy cb : Nat) (s : List Nat × Nat) (xOff : Nat)
    (hd : s.1.length = 256) (hy : yy < 32) (x' y' : Nat) (hx' : x' < 64)
    (hy' : y' < 32) :
    getPixel (drawBit sx yy cb s xOff).1 x' y' =
      if x' = (sx + xOff) % 256 % 64 ∧ y' = yy
      then getPixel s.1 x' y' ^^^ ((cb >>> (7 - xOff)) &&& 1)
      else getPixel s.1 x' y' := by
  have hX : (sx + xOff) % 256 % 64 < 64 := Nat.mod_lt _ (by norm_num)
  simp only [drawBit, getPixel, WIDTH]
  by_cases hxy : x' = (sx + xOff) % 256 % 64 ∧ y' = yy
  · obtain ⟨hx1, hy1⟩ := hxy
    rw [if_pos ⟨hx1, hy1⟩, hx1, hy1,
      getD_set_same _ (by rw [hd]; omega)]
    exact xor_shl_same _ _ _ (shr_and_one_le _ _)
  · rw [if_neg hxy]
    by_cases hbi : x' / 8 + y' * (64 / 8) =
        (sx + xOff) % 256 % 64 / 8 + yy * (64 / 8)
    · have hbp : 7 - (sx + xOff) % 256 % 64 % 8 ≠ 7 - x' % 8 := by
        intro hc
        exact hxy (by constructor <;> omega)
      rw [hbi, getD_set_same _ (by rw [hd]; omega)]
      exact xor_shl_diff _ _ _ _ (shr_and_one_le _ _) hbp
    · rw [getD_set_diff _ (fun hc => hbi hc.symm)]

theorem drawBit_snd (sx yy cb : Nat) (s : List Nat × Nat) (xOff : Nat) :
    (drawBit sx yy cb s xOff).2 =
      if getPixel s.1 ((sx + xOff) % 256 % 64) yy = 1 ∧
          ((cb >>> (7 - xOff)) &&& 1) = 1
      then 1 else s.2 := by
  simp only [drawBit, getPixel, WIDTH]

theorem drawBit_len (sx yy cb : Nat) (s : List Nat × Nat) (xOff : Nat) :
    (drawBit sx yy cb s xOff).1.length = s.1.length := by
  simp [drawBit]

theorem rowFold_succ (sx yy cb : Nat) (s : List Nat × Nat) (w : Nat) :
    rowFold sx yy cb s (w + 1) = drawBit sx yy cb (rowFold sx yy cb s w) w := by
  simp [rowFold, List.range_succ]

theorem rowFold_len (sx yy cb : Nat) (s : List Nat × Nat) (w : Nat) :
    (rowFold sx yy cb s w).1.length = s.1.length := by
  induction w with
  | zero => rfl
  | succ n ih => rw [rowFold_succ, drawBit_len, ih]

theorem col_ne {sx a b : Nat} (ha : a < 64) (hb : b < 64) (hne : a ≠ b) :
    (sx + a) % 256 % 64 ≠ (sx + b) % 256 % 64 := by
  rw [Nat.mod_mod_of_dvd _ (by norm_num), Nat.mod_mod_of_dvd _ (by norm_num)]
  omega

theorem row_ne {sy a b : Nat} (ha : a < 32) (hb : b < 32) (hne : a ≠ b) :
    (sy + a) % 256 % 32 ≠ (sy + b) % 256 % 32 := by
  rw [Nat.mod_mod_of_dvd _ (by norm_num), Nat.mod_mod_of_dvd _ (by norm_num)]
  omega

theorem rowFold_untouched (sx yy cb : Nat) (s : List Nat × Nat) (w : Nat)
    (hd : s.1.length = 256) (hy : yy < 32) (x' y' : Nat) (hx' : x' < 64)
    (hy' : y' < 32)
    (hun : ∀ c, c < w → ¬(x' = (sx + c) % 256 % 64 ∧ y' = yy)) :
    getPixel (rowFold sx yy cb s w).1 x' y' = getPixel s.1 x' y' := by
  induction w with
  | zero => rfl
  | succ n ih =>
    rw [rowFold_succ,
      drawBit_fst sx yy cb _ n (by rw [rowFold_len]; exact hd) hy x' y' hx' hy',
      if_neg (hun n (by omega))]
    exact ih (fun c hc => hun c (by omega))

theorem rowFold_cov (sx yy cb : Nat) (s : List Nat × Nat) (w : Nat)
    (hd : s.1.length = 256) (hy : yy < 32) (hw : w ≤ 64) (c : Nat) (hc : c < w) :
    getPixel (rowFold sx yy cb s w).1 ((sx + c) % 256 % 64) yy =
      getPixel s.1 ((sx + c) % 256 % 64) yy ^^^ ((cb >>> (7 - c)) &&& 1) := by
  have hXc : (sx + c) % 256 % 64 < 64 := Nat.mod_lt _ (by norm_num)
  induction w with
  | zero => omega
  | succ n ih =>
    rw [rowFold_succ,
      drawBit_fst sx yy cb _ n (by rw [rowFold_len]; exact hd) hy _ yy hXc hy]
    by_cases hcn : c = n
    · subst hcn
      rw [if_pos ⟨rfl, rfl⟩]
      congr 1
      exact rowFold_untouched sx yy cb s c hd hy _ yy hXc hy
        (fun c' hc' hcon => col_ne (by omega) (by omega) (by omega) hcon.1)
    · rw [if_neg (fun hcon => col_ne (by omega) (by omega) hcn hcon.1)]
      exact ih (by omega) (by omega)

theorem rowFold_vf_cases (sx yy cb : Nat) (s : List Nat × Nat) (w : Nat) :
    (rowFold sx yy cb s w).2 = s.2 ∨ (rowFold sx yy cb s w).2 = 1 := by
  induction w with
  | zero => exact Or.inl rfl
  | succ n ih =>
    rw [rowFold_succ, drawBit_snd]
    split
    · exact Or.inr rfl
    · exact ih

theorem rowFold_vf_iff (sx yy cb : Nat) (s : List Nat × Nat) (w : Nat)
    (hd : s.1.length = 256) (hy : yy < 32) (hw : w ≤ 64) :
    ((rowFold sx yy cb s w).2 = 1 ↔ s.2 = 1 ∨
      ∃ c, c < w ∧ getPixel s.1 ((sx + c) % 256 % 64) yy = 1 ∧
        ((cb >>> (7 - c)) &&& 1) = 1) := by
  induction w with
  | zero =>
    simp only [rowFold, List.range_zero, List.foldl_nil]
    constructor
    · intro h; exact Or.inl h
    · rintro (h | ⟨c, hc, -⟩)
      · exact h
      · omega
  | succ n ih =>
    have hXn : (sx + n) % 256 % 64 < 64 := Nat.mod_lt _ (by norm_num)
    rw [rowFold_succ, drawBit_snd,
      rowFold_untouched sx yy cb s n hd hy _ yy hXn hy
        (fun c' hc' hcon => col_ne (by omega) (by omega) (by omega) hcon.1)]
    by_cases hP : getPixel s.1 ((sx + n) % 256 % 64) yy = 1 ∧
        ((cb >>> (7 - n)) &&& 1) = 1
    · rw [if_pos hP]
      constructor
      · intro _
        exact Or.inr ⟨n, by omega, hP.1, hP.2⟩
      · intro _
        rfl
    · rw [if_neg hP, ih (by omega)]
      constructor
      · rintro (h | ⟨c, hc, h1, h2⟩)
        · exact Or.inl h
        · exact Or.inr ⟨c, by omega, h1, h2⟩
      · rintro (h | ⟨c, hc, h1, h2⟩)
        · exact Or.inl h
        · rcases Nat.lt_or_ge c n with hlt | hge
          · exact Or.inr ⟨c, hlt, h1, h2⟩
          · have hcn : c = n := by omega
            subst hcn
            exact absurd ⟨h1, h2⟩ hP

theorem spriteFold_succ (spr : Sprite) (s : List Nat × Nat) (h : Nat) :
    spriteFold spr s (h + 1) = drawRow spr (spriteFold spr s h) h := by
  simp [spriteFold, List.range_succ]

theorem spriteFold_len (spr : Sprite) (s : List Nat × Nat) (h : Nat) :
    (spriteFold spr s h).1.length = s.1.length := by
  induction h with
  | zero => rfl
  | succ n ih =>
    rw [spriteFold_succ]
    simp only [drawRow]
    rw [rowFold_len, ih]

theorem spriteFold_untouched (spr : Sprite) (s : List Nat × Nat) (h : Nat)
    (hd : s.1.length = 256) (hh : h ≤ 32) (x' y' : Nat) (hx' : x' < 64)
    (hy' : y' < 32)
    (hun : ∀ r, r < h → ∀ c, c < spr.width →
      ¬(x' = (spr.x + c) % 256 % 64 ∧ y' = (spr.y + r) % 256 % 32)) :
    getPixel (spriteFold spr s h).1 x' y' = getPixel s.1 x' y' := by
  induction h with
  | zero => rfl
  | succ n ih =>
    rw [spriteFold_succ]
    simp only [drawRow, HEIGHT]
    have hYn : (spr.y + n) % 256 % 32 < 32 := Nat.mod_lt _ (by norm_num)
    rw [rowFold_untouched _ _ _ _ _
      (by rw [spriteFold_len]; exact hd) hYn x' y' hx' hy'
      (fun c hc hcon => hun n (by omega) c hc hcon)]
    exact ih (by omega) (fun r hr => hun r (by omega))

theorem spriteFold_cov (spr : Sprite) (s : List Nat × Nat) (h : Nat)
    (hd : s.1.length = 256) (hh : h ≤ 32) (hw : spr.width ≤ 64)
    (r c : Nat) (hr : r < h) (hc : c < spr.width) :
    getPixel (spriteFold spr s h).1 ((spr.x + c) % 256 % 64)
        ((spr.y + r) % 256 % 32) =
      getPixel s.1 ((spr.x + c) % 256 % 64) ((spr.y + r) % 256 % 32) ^^^
        spriteBit spr.content r c := by
  have hXc : (spr.x + c) % 256 % 64 < 64 := Nat.mod_lt _ (by norm_num)
  have hYr : (spr.y + r) % 256 % 32 < 32 := Nat.mod_lt _ (by norm_num)
  induction h with
  | zero => omega
  | succ n ih =>
    rw [spriteFold_succ]
    simp only [drawRow, HEIGHT]
    by_cases hrn : r = n
    · subst hrn
      rw [rowFold_cov _ _ _ _ _
        (by rw [spriteFold_len]; exact hd) hYr (by omega) c hc]
      simp only [spriteBit]
      congr 1
      exact spriteFold_untouched spr s r hd (by omega) _ _ hXc hYr
        (fun r' hr' c' hc' hcon => row_ne (by omega) (by omega) (by omega) hcon.2)
    · rw [rowFold_untouched _ _ _ _ _
        (by rw [spriteFold_len]; exact hd)
        (Nat.mod_lt _ (by norm_num)) _ _ hXc hYr
        (fun c' hc' hcon => row_ne (by omega) (by omega) hrn hcon.2)]
      exact ih (by omega) (by omega)

theorem spriteFold_vf_cases (spr : Sprite) (s : List Nat × Nat) (h : Nat) :
    (spriteFold spr s h).2 = s.2 ∨ (spriteFold spr s h).2 = 1 := by
  induction h with
  | zero => exact Or.inl rfl
  | succ n ih =>
    rw [spriteFold_succ]
    simp only [drawRow]
    rcases rowFold_vf_cases spr.x ((spr.y + n) % 256 % HEIGHT)
        (spr.content.getD n 0) (spriteFold spr s n) spr.width with hcase | hcase
    · rw [hcase]; exact ih
    · exact Or.inr hcase

theorem spriteFold_vf_iff (spr : Sprite) (s : List Nat × Nat) (h : Nat)
    (hd : s.1.length = 256) (hh : h ≤ 32) (hw : spr.width ≤ 64) :
    ((spriteFold spr s h).2 = 1 ↔ s.2 = 1 ∨
      ∃ r, r < h ∧ ∃ c, c < spr.width ∧
        getPixel s.1 ((spr.x + c) % 256 % 64) ((spr.y + r) % 256 % 32) = 1 ∧
        spriteBit spr.content r c = 1) := by
  induction h with
  | zero =>
    simp only [spriteFold, List.range_zero, List.foldl_nil]
    constructor
    · intro hvf; exact Or.inl hvf
    · rintro (hvf | ⟨r, hr, -⟩)
      · exact hvf
      · omega
  | succ n ih =>
    rw [spriteFold_succ]
    simp only [drawRow, HEIGHT]
    have hYn : (spr.y + n) % 256 % 32 < 32 := Nat.mod_lt _ (by norm_num)
    rw [rowFold_vf_iff _ _ _ _ _
      (by rw [spriteFold_len]; exact hd) hYn hw]
    rw [ih (by omega)]
    constructor
    · rintro ((hvf | ⟨r, hr, c, hc, h1, h2⟩) | ⟨c, hc, h1, h2⟩)
      · exact Or.inl hvf
      · exact Or.inr ⟨r, by omega, c, hc, h1, h2⟩
      · refine Or.inr ⟨n, by omega, c, hc, ?_, h2⟩
        rw [spriteFold_untouched spr s n hd (by omega) _ _
          (Nat.mod_lt _ (by norm_num)) hYn
          (fun r' hr' c' hc' hcon => row_ne (by omega) (by omega)
            (by omega) hcon.2)] at h1
        exact h1
    · rintro (hvf | ⟨r, hr, c, hc, h1, h2⟩)
      · exact Or.inl (Or.inl hvf)
      · by_cases hrn : r = n
        · subst hrn
          refine Or.inr ⟨c, hc, ?_, h2⟩
          rw [spriteFold_untouched spr s r hd (by omega) _ _
            (Nat.mod_lt _ (by norm_num)) hYn
            (fun r' hr' c' hc' hcon => row_ne (by omega) (by omega)
              (by omega) hcon.2)]
          exact h1
        · exact Or.inl (Or.inr ⟨r, by omega, c, hc, h1, h2⟩)

theorem stepEq_call (kd : Key → Bool) (rb : Nat) (e : Emulator)
    (hf : e.pc + 1 < 4096)
    (hi : 0x2000 ≤ instrAt e ∧ instrAt e ≤ 0x2FFF)
    (hs : e.sp < e.stack.length) :
    step kd rb e = .ok { e with
      stack := e.stack.set e.sp ((e.pc + 2) % 65536)
      sp := e.sp + 1
      pc := (nnnOf e + 2) % 65536 } := by
  obtain ⟨hi1, hi2⟩ := hi
  have n1 : ¬(0x6000 ≤ instrAt e ∧ instrAt e ≤ 0x6FFF) := by omega
  have n2 : ¬(0xA000 ≤ instrAt e ∧ instrAt e ≤ 0xAFFF) := by omega
  have n3 : ¬(0xD000 ≤ instrAt e ∧ instrAt e ≤ 0xDFFF) := by omega
  unfold step execArm
  rw [if_pos hf, if_neg n1, if_neg n2, if_neg n3, if_pos ⟨hi1, hi2⟩, if_pos hs]
  rfl

theorem stepEq_call_err (kd : Key → Bool) (rb : Nat) (e : Emulator)
    (hf : e.pc + 1 < 4096)
    (hi : 0x2000 ≤ instrAt e ∧ instrAt e ≤ 0x2FFF)
    (hs : ¬ e.sp < e.stack.length) :
    step kd rb e = .error (.stackOverflow e.pc) := by
  obtain ⟨hi1, hi2⟩ := hi
  have n1 : ¬(0x6000 ≤ instrAt e ∧ instrAt e ≤ 0x6FFF) := by omega
  have n2 : ¬(0xA000 ≤ instrAt e ∧ instrAt e ≤ 0xAFFF) := by omega
  have n3 : ¬(0xD000 ≤ instrAt e ∧ instrAt e ≤ 0xDFFF) := by omega
  unfold step execArm
  rw [if_pos hf, if_neg n1, if_neg n2, if_neg n3, if_pos ⟨hi1, hi2⟩, if_neg hs]
  rfl

theorem stepEq_ret (kd : Key → Bool) (rb : Nat) (e : Emulator)
    (hf : e.pc + 1 < 4096) (hi : instrAt e = 0x00EE) (h0 : ¬ e.sp = 0)
    (hs : e.sp - 1 < e.stack.length) :
    step kd rb e = .ok { e with
      sp := e.sp - 1
      pc := e.stack.getD (e.sp - 1) 0 } := by
  have n1 : ¬(0x6000 ≤ instrAt e ∧ instrAt e ≤ 0x6FFF) := by omega
  have n2 : ¬(0xA000 ≤ instrAt e ∧ instrAt e ≤ 0xAFFF) := by omega
  have n3 : ¬(0xD000 ≤ instrAt e ∧ instrAt e ≤ 0xDFFF) := by omega
  have n4 : ¬(0x2000 ≤ instrAt e ∧ instrAt e ≤ 0x2FFF) := by omega
  have n5 : ¬(0x7000 ≤ instrAt e ∧ instrAt e ≤ 0x7FFF) := by omega
  unfold step execArm
  rw [if_pos hf, if_neg n1, if_neg n2, if_neg n3, if_neg n4, if_neg n5,
    if_pos hi, if_neg h0, if_pos hs]
  rfl

theorem stepEq_ret_err (kd : Key → Bool) (rb : Nat) (e : Emulator)
    (hf : e.pc + 1 < 4096) (hi : instrAt e = 0x00EE) (h0 : e.sp = 0) :
    step kd rb e = .error (.stackUnderflow e.pc) := by
  have n1 : ¬(0x6000 ≤ instrAt e ∧ instrAt e ≤ 0x6FFF) := by omega
  have n2 : ¬(0xA000 ≤ instrAt e ∧ instrAt e ≤ 0xAFFF) := by omega
  have n3 : ¬(0xD000 ≤ instrAt e ∧ instrAt e ≤ 0xDFFF) := by omega
  have n4 : ¬(0x2000 ≤ instrAt e ∧ instrAt e ≤ 0x2FFF) := by omega
  have n5 : ¬(0x7000 ≤ instrAt e ∧ instrAt e ≤ 0x7FFF) := by omega
  unfold step execArm
  rw [if_pos hf, if_neg n1, if_neg n2, if_neg n3, if_neg n4, if_neg n5,
    if_pos hi, if_pos h0]
  rfl

theorem stepEq_draw (kd : Key → Bool) (rb : Nat) (e : Emulator)
    (hf : e.pc + 1 < 4096)
    (hi : 0xD000 ≤ instrAt e ∧ instrAt e ≤ 0xDFFF)
    (hb : e.register_i + (instrLow e &&& 0x0F) ≤ e.ram.length) :
    step kd rb e = .ok { load_sprite e (drawnSprite e)
      with pc := (e.pc + 2) % 65536 } := by
  obtain ⟨hi1, hi2⟩ := hi
  have n1 : ¬(0x6000 ≤ instrAt e ∧ instrAt e ≤ 0x6FFF) := by omega
  have n2 : ¬(0xA000 ≤ instrAt e ∧ instrAt e ≤ 0xAFFF) := by omega
  unfold step execArm
  rw [if_pos hf, if_neg n1, if_neg n2, if_pos ⟨hi1, hi2⟩, if_pos hb]
  rfl

theorem stepEq_fx33 (kd : Key → Bool) (rb : Nat) (e : Emulator)
    (hf : e.pc + 1 < 4096)
    (hi : (0xF033 ≤ instrAt e ∧ instrAt e ≤ 0xFF33) ∧ instrAt e &&& 0xFF = 0x33)
    (hb : e.register_i + 2 < e.ram.length) :
    step kd rb e = .ok { e with
      ram := (((e.ram.set e.register_i ((e.registers.getD (xNibble e) 0 / 100) % 10)).set
        (e.register_i + 1) ((e.registers.getD (xNibble e) 0 / 10) % 10)).set
        (e.register_i + 2) (e.registers.getD (xNibble e) 0 % 10))
      pc := (e.pc + 2) % 65536 } := by
  obtain ⟨⟨hi1, hi2⟩, hi3⟩ := hi
  have n1 : ¬(0x6000 ≤ instrAt e ∧ instrAt e ≤ 0x6FFF) := by omega
  have n2 : ¬(0xA000 ≤ instrAt e ∧ instrAt e ≤ 0xAFFF) := by omega
  have n3 : ¬(0xD000 ≤ instrAt e ∧ instrAt e ≤ 0xDFFF) := by omega
  have n4 : ¬(0x2000 ≤ instrAt e ∧ instrAt e ≤ 0x2FFF) := by omega
  have n5 : ¬(0x7000 ≤ instrAt e ∧ instrAt e ≤ 0x7FFF) := by omega
  have n6 : ¬(instrAt e = 0x00EE) := by omega
  have n7 : ¬((0xF065 ≤ instrAt e ∧ instrAt e ≤ 0xFF65) ∧
      instrAt e &&& 0xFF = 0x65) := by
    rintro ⟨-, hg⟩; omega
  unfold step execArm
  rw [if_pos hf, if_neg n1, if_neg n2, if_neg n3, if_neg n4, if_neg n5,
    if_neg n6, if_neg n7, if_pos ⟨⟨hi1, hi2⟩, hi3⟩, if_pos hb]
  rfl

theorem stepEq_8xy4 (kd : Key → Bool) (rb : Nat) (e : Emulator)
    (hf : e.pc + 1 < 4096)
    (hi : (0x8004 ≤ instrAt e ∧ instrAt e ≤ 0x8FF4) ∧ instrAt e &&& 0xF = 0x4) :
    step kd rb e = .ok { e with
      registers := ((e.registers.set 0xF
        (if 256 ≤ e.registers.getD (xNibble e) 0 + e.registers.getD (yNibble e) 0
         then 1 else 0)).set (xNibble e)
        ((e.registers.getD (xNibble e) 0 + e.registers.getD (yNibble e) 0) % 256))
      pc := (e.pc + 2) % 65536 } := by
  obtain ⟨⟨hi1, hi2⟩, hi3⟩ := hi
  have n1 : ¬(0x6000 ≤ instrAt e ∧ instrAt e ≤ 0x6FFF) := by omega
  have n2 : ¬(0xA000 ≤ instrAt e ∧ instrAt e ≤ 0xAFFF) := by omega
  have n3 : ¬(0xD000 ≤ instrAt e ∧ instrAt e ≤ 0xDFFF) := by omega
  have n4 : ¬(0x2000 ≤ instrAt e ∧ instrAt e ≤ 0x2FFF) := by omega
  have n5 : ¬(0x7000 ≤ instrAt e ∧ instrAt e ≤ 0x7FFF) := by omega
  have n6 : ¬(instrAt e = 0x00EE) := by omega
  have n7 : ¬((0xF065 ≤ instrAt e ∧ instrAt e ≤ 0xFF65) ∧
      instrAt e &&& 0xFF = 0x65) := by rintro ⟨⟨hg, -⟩, -⟩; omega
  have n8 : ¬((0xF033 ≤ instrAt e ∧ instrAt e ≤ 0xFF33) ∧
      instrAt e &&& 0xFF = 0x33) := by rintro ⟨⟨hg, -⟩, -⟩; omega
  have n9 : ¬((0xF029 ≤ instrAt e ∧ instrAt e ≤ 0xFF29) ∧
      instrAt e &&& 0xFF = 0x29) := by rintro ⟨⟨hg, -⟩, -⟩; omega
  have n10 : ¬((0xF007 ≤ instrAt e ∧ instrAt e ≤ 0xFF07) ∧
      instrAt e &&& 0xFF = 0x07) := by rintro ⟨⟨hg, -⟩, -⟩; omega
  have n11 : ¬((0xF015 ≤ instrAt e ∧ instrAt e ≤ 0xFF15) ∧
      instrAt e &&& 0xFF = 0x15) := by rintro ⟨⟨hg, -⟩, -⟩; omega
  have n12 : ¬(0x3000 ≤ instrAt e ∧ instrAt e ≤ 0x3FFF) := by omega
  have n13 : ¬(0x1000 ≤ instrAt e ∧ instrAt e ≤ 0x1FFF) := by omega
  have n14 : ¬(0xC000 ≤ instrAt e ∧ instrAt e ≤ 0xCFFF) := by omega
  have n15 : ¬((0xE09E ≤ instrAt e ∧ instrAt e ≤ 0xEF9E) ∧
      instrAt e &&& 0xFF = 0x9E) := by rintro ⟨⟨hg, -⟩, -⟩; omega
  have n16 : ¬((0xE0A1 ≤ instrAt e ∧ instrAt e ≤ 0xEFA1) ∧
      instrAt e &&& 0xFF = 0xA1) := by rintro ⟨⟨hg, -⟩, -⟩; omega
  have n17 : ¬((0x8002 ≤ instrAt e ∧ instrAt e ≤ 0x8FF2) ∧
      instrAt e &&& 0xF = 0x2) := by rintro ⟨-, hg⟩; omega
  unfold step execArm
  rw [if_pos hf, if_neg n1, if_neg n2, if_neg n3, if_neg n4, if_neg n5,
    if_neg n6, if_neg n7, if_neg n8, if_neg n9, if_neg n10, if_neg n11,
    if_neg n12, if_neg n13, if_neg n14, if_neg n15, if_neg n16, if_neg n17,
    if_pos ⟨⟨hi1, hi2⟩, hi3⟩]
  rfl

theorem stepEq_8xy5 (kd : Key → Bool) (rb : Nat) (e : Emulator)
    (hf : e.pc + 1 < 4096)
    (hi : (0x8005 ≤ instrAt e ∧ instrAt e ≤ 0x8FF5) ∧ instrAt e &&& 0xF = 0x5) :
    step kd rb e = .ok { e with
      registers := ((e.registers.set 0xF
        (if e.registers.getD (xNibble e) 0 < e.registers.getD (yNibble e) 0
         then 0 else 1)).set (xNibble e)
        ((e.registers.getD (xNibble e) 0 + 256 -
          e.registers.getD (yNibble e) 0) % 256))
      pc := (e.pc + 2) % 65536 } := by
  obtain ⟨⟨hi1, hi2⟩, hi3⟩ := hi
  have n1 : ¬(0x6000 ≤ instrAt e ∧ instrAt e ≤ 0x6FFF) := by omega
  have n2 : ¬(0xA000 ≤ instrAt e ∧ instrAt e ≤ 0xAFFF) := by omega
  have n3 : ¬(0xD000 ≤ instrAt e ∧ instrAt e ≤ 0xDFFF) := by omega
  have n4 : ¬(0x2000 ≤ instrAt e ∧ instrAt e ≤ 0x2FFF) := by omega
  have n5 : ¬(0x7000 ≤ instrAt e ∧ instrAt e ≤ 0x7FFF) := by omega
  have n6 : ¬(instrAt e = 0x00EE) := by omega
  have n7 : ¬((0xF065 ≤ instrAt e ∧ instrAt e ≤ 0xFF65) ∧
      instrAt e &&& 0xFF = 0x65) := by rintro ⟨⟨hg, -⟩, -⟩; omega
  have n8 : ¬((0xF033 ≤ instrAt e ∧ instrAt e ≤ 0xFF33) ∧
      instrAt e &&& 0xFF = 0x33) := by rintro ⟨⟨hg, -⟩, -⟩; omega
  have n9 : ¬((0xF029 ≤ instrAt e ∧ instrAt e ≤ 0xFF29) ∧
      instrAt e &&& 0xFF = 0x29) := by rintro ⟨⟨hg, -⟩, -⟩; omega
  have n10 : ¬((0xF007 ≤ instrAt e ∧ instrAt e ≤ 0xFF07) ∧
      instrAt e &&& 0xFF = 0x07) := by rintro ⟨⟨hg, -⟩, -⟩; omega
  have n11 : ¬((0xF015 ≤ instrAt e ∧ instrAt e ≤ 0xFF15) ∧
      instrAt e &&& 0xFF = 0x15) := by rintro ⟨⟨hg, -⟩, -⟩; omega
  have n12 : ¬(0x3000 ≤ instrAt e ∧ instrAt e ≤ 0x3FFF) := by omega
  have n13 : ¬(0x1000 ≤ instrAt e ∧ instrAt e ≤ 0x1FFF) := by omega
  have n14 : ¬(0xC000 ≤ instrAt e ∧ instrAt e ≤ 0xCFFF) := by omega
  have n15 : ¬((0xE09E ≤ instrAt e ∧ instrAt e ≤ 0xEF9E) ∧
      instrAt e &&& 0xFF = 0x9E) := by rintro ⟨⟨hg, -⟩, -⟩; omega
  have n16 : ¬((0xE0A1 ≤ instrAt e ∧ instrAt e ≤ 0xEFA1) ∧
      instrAt e &&& 0xFF = 0xA1) := by rintro ⟨⟨hg, -⟩, -⟩; omega
  have n17 : ¬((0x8002 ≤ instrAt e ∧ instrAt e ≤ 0x8FF2) ∧
      instrAt e &&& 0xF = 0x2) := by rintro ⟨-, hg⟩; omega
  have n18 : ¬((0x8004 ≤ instrAt e ∧ instrAt e ≤ 0x8FF4) ∧
      instrAt e &&& 0xF = 0x4) := by rintro ⟨-, hg⟩; omega
  unfold step execArm
  rw [if_pos hf, if_neg n1, if_neg n2, if_neg n3, if_neg n4, if_neg n5,
    if_neg n6, if_neg n7, if_neg n8, if_neg n9, if_neg n10, if_neg n11,
    if_neg n12, if_neg n13, if_neg n14, if_neg n15, if_neg n16, if_neg n17,
    if_neg n18, if_pos ⟨⟨hi1, hi2⟩, hi3⟩]
  rfl

theorem stepEq_default (kd : Key → Bool) (rb : Nat) (e : Emulator)
    (hf : e.pc + 1 < 4096) (hm : ¬ matchedBy (instrAt e)) :
    step kd rb e = .ok { e with pc := (e.pc + 2) % 65536 } := by
  simp only [matchedBy, not_or] at hm
  obtain ⟨m1, m2, m3, m4, m5, m6, m7, m8, m9, m10, m11, m12, m13, m14, m15,
    m16, m17, m18, m19, m20, m21⟩ := hm
  unfold step execArm
  rw [if_pos hf, if_neg m1, if_neg m2, if_neg m3, if_neg m4, if_neg m5,
    if_neg m6, if_neg m7, if_neg m8, if_neg m9, if_neg m10, if_neg m11,
    if_neg m12, if_neg m13, if_neg m14, if_neg m15, if_neg m16, if_neg m17,
    if_neg m18, if_neg m19, if_neg m20, if_neg m21]
  rfl

theorem wrap64 (a : Nat) : a % 256 % 64 = a % 64 :=
  Nat.mod_mod_of_dvd a (by norm_num)

theorem wrap32 (a : Nat) : a % 256 % 32 = a % 32 :=
  Nat.mod_mod_of_dvd a (by norm_num)

theorem getPixel_le_one (d : List Nat) (x y : Nat) : getPixel d x y ≤ 1 :=
  shr_and_one_le _ _

theorem spriteBit_le_one (content : List Nat) (r c : Nat) :
    spriteBit content r c ≤ 1 :=
  shr_and_one_le _ _

/-- Ram image: an all-zero 4096-byte memory patched at the given addresses. -/
def patchRam (l : List (Nat × Nat)) : List Nat :=
  l.foldl (fun r p => r.set p.1 p.2) (List.replicate 4096 0)

theorem foldl_set_length (l : List (Nat × Nat)) (acc : List Nat) :
    (l.foldl (fun r p => r.set p.1 p.2) acc).length = acc.length := by
  induction l generalizing acc with
  | nil => rfl
  | cons p t ih => simp [List.foldl, ih]

theorem patchRam_length (l : List (Nat × Nat)) : (patchRam l).length = 4096 := by
  unfold patchRam
  rw [foldl_set_length]
  exact List.length_replicate 4096 0

/-- State whose next instruction is `0x2300` (call 0x300). -/
def c1state : Emulator :=
  { emptyEmu with ram := patchRam [(0x200, 0x23), (0x201, 0x00)] }

/-- Claim C1 (code_bug evidence): executing the call `0x2300` at `pc = 0x200`
pushes `0x202` and sets `pc := 0x300`, but the arm does not `continue`, so the
trailing `pc += 2` of the loop body runs and the next fetch happens at
`0x302 = nnn + 2`, not at `nnn` as the specification requires. -/
theorem c1_code_eval :
    step noKeys 0 c1state = .ok { c1state with
      pc := 0x302
      sp := 1
      stack := (List.replicate 16 0).set 0 0x202 } := by
  rfl

/-- State whose next instruction is the unimplemented word `0x5000`. -/
def c2state : Emulator :=
  { emptyEmu with ram := patchRam [(0x200, 0x50), (0x201, 0x00)] }

/-- Claim C2 counterexample: executing the unimplemented word `0x5000` is not
fatal; the interpreter returns normally with `pc` advanced by 2 and the state
otherwise unchanged, i.e. it skips the instruction and continues. -/
theorem c2_counterexample :
    step noKeys 0 c2state = .ok { c2state with pc := 0x202 } := by
  rfl

/-- Claim C2 (amended): for every instruction word not matched by any arm of
the opcode table, execution is not fatal: the arm only prints the raw bytes,
and the interpreter continues with `pc` advanced by 2 and every other piece
of state unchanged. -/
theorem c2_amended (kd : Key → Bool) (rb : Nat) (e : Emulator)
    (hf : e.pc + 1 < 4096) (hm : ¬ matchedBy (instrAt e)) :
    step kd rb e = .ok { e with pc := (e.pc + 2) % 65536 } :=
  stepEq_default kd rb e hf hm

/-- Witness for C2's amended theorem at the concrete input `0x5000`. -/
theorem c2_witness :
    (c2state.pc + 1 < 4096 ∧ ¬ matchedBy (instrAt c2state)) ∧
    step noKeys 0 c2state = .ok { c2state with pc := (c2state.pc + 2) % 65536 } :=
  ⟨⟨by decide, by decide⟩, c2_amended noKeys 0 c2state (by decide) (by decide)⟩

/-- State with a window whose next instruction is `0xE09E` (skip if key
`V0` down). -/
def c3state : Emulator :=
  { emptyEmu with
    window := true
    ram := patchRam [(0x200, 0xE0), (0x201, 0x9E)] }

/-- Claim C3 (code_bug evidence): with a window present, one cycle of `Ex9E`
leaves `pc = 0x202` (net advance 2) when the key is down and `pc = 0x200`
(net advance 0) when it is up, because the arm executes `continue` and skips
the normal advance; the specified net advances are 4 and 2. -/
theorem c3_code_eval :
    step allKeys 0 c3state = .ok { c3state with pc := 0x202 } ∧
    step noKeys 0 c3state = .ok c3state := by
  constructor
  · rfl
  · rfl

/-- State whose next instruction is `0x8F35` (8xy5 with x = 0xF), with
`VF = 5` and `V3 = 3`. -/
def c7state : Emulator :=
  { emptyEmu with
    ram := patchRam [(0x200, 0x8F), (0x201, 0x35)]
    registers := (((List.replicate 16 0).set 0xF 5).set 3 3) }

/-- Claim C7 counterexample: executing `8xy5` with `x = 0xF`, `Vx = VF = 5`,
`Vy = V3 = 3` (no borrow, so the claim demands `VF = 1`) leaves `VF = 2`,
the wrapped difference, because the subtraction result overwrites the borrow
flag. -/
theorem c7_counterexample :
    (step noKeys 0 c7state).toOption.map (fun m => m.registers.getD 0xF 0) =
      some 2 := by
  decide

/-- Claim C7 (amended): for every x other than 0xF and every y, `8xy5` sets
`Vx := Vx - Vy` wrapping modulo 256 and `VF := 1` exactly when no borrow
occurred (`Vy ≤ Vx`), else `VF := 0`. -/
theorem c7_amended (kd : Key → Bool) (rb : Nat) (e : Emulator)
    (hf : e.pc + 1 < 4096) (hregs : e.registers.length = 16)
    (hi : (0x8005 ≤ instrAt e ∧ instrAt e ≤ 0x8FF5) ∧ instrAt e &&& 0xF = 0x5)
    (hx : xNibble e ≠ 0xF) :
    ∃ e', step kd rb e = .ok e' ∧
      e'.registers.getD (xNibble e) 0 =
        (e.registers.getD (xNibble e) 0 + 256 -
          e.registers.getD (yNibble e) 0) % 256 ∧
      e'.registers.getD 0xF 0 =
        (if e.registers.getD (xNibble e) 0 < e.registers.getD (yNibble e) 0
         then 0 else 1) := by
  refine ⟨_, stepEq_8xy5 kd rb e hf hi, ?_, ?_⟩
  · have hxlt : xNibble e ≤ 0x0F := Nat.and_le_right
    refine getD_set_same _ ?_
    rw [List.length_set, hregs]
    omega
  · rw [getD_set_diff _ hx]
    exact getD_set_same _ (by rw [hregs]; norm_num)

/-- State whose next instruction is `0x8535` (`V5 := V5 - V3`), with
`V5 = 5` and `V3 = 3`. -/
def c7okState : Emulator :=
  { emptyEmu with
    ram := patchRam [(0x200, 0x85), (0x201, 0x35)]
    registers := (((List.replicate 16 0).set 5 5).set 3 3) }

/-- Witness for C7's amended theorem: `V5 = 5`, `V3 = 3`, instruction
`0x8535` gives `V5 = 2` and `VF = 1`. -/
theorem c7_witness :
    (step noKeys 0 c7okState).toOption.map
      (fun m => (m.registers.getD 5 0, m.registers.getD 0xF 0)) =
      some (2, 1) := by
  obtain ⟨e', hstep, hx, hvf⟩ :=
    c7_amended noKeys 0 c7okState (by decide) (by decide) (by decide) (by decide)
  have e1 : xNibble c7okState = 5 := by decide
  have e2 : yNibble c7okState = 3 := by decide
  rw [e1, e2] at hx hvf
  have e3 : c7okState.registers.getD 5 0 = 5 := by decide
  have e4 : c7okState.registers.getD 3 0 = 3 := by decide
  rw [e3, e4] at hx hvf
  norm_num at hx hvf
  rw [hstep]
  simp [Except.toOption, hx, hvf]

/-- Claim C8: for every state decoding an `Fx33` instruction with `I + 2`
within the 4096-byte ram and `Vx` a byte, the step writes the decimal
hundreds digit of `Vx` at `I`, the tens digit at `I + 1`, and the units
digit at `I + 2`. -/
theorem c8_bcd (kd : Key → Bool) (rb : Nat) (e : Emulator)
    (hf : e.pc + 1 < 4096) (hram : e.ram.length = 4096)
    (hi : (0xF033 ≤ instrAt e ∧ instrAt e ≤ 0xFF33) ∧ instrAt e &&& 0xFF = 0x33)
    (hb : e.register_i + 2 < 4096)
    (hv : e.registers.getD (xNibble e) 0 < 256) :
    ∃ e', step kd rb e = .ok e' ∧
      e'.ram.getD e.register_i 0 = e.registers.getD (xNibble e) 0 / 100 ∧
      e'.ram.getD (e.register_i + 1) 0 = e.registers.getD (xNibble e) 0 / 10 % 10 ∧
      e'.ram.getD (e.register_i + 2) 0 = e.registers.getD (xNibble e) 0 % 10 := by
  refine ⟨_, stepEq_fx33 kd rb e hf hi (by omega), ?_, ?_, ?_⟩
  · rw [getD_set_diff _ (by omega), getD_set_diff _ (by omega),
      getD_set_same _ (by omega)]
    omega
  · rw [getD_set_diff _ (by omega), getD_set_same _ (by simp; omega)]
  · rw [getD_set_same _ (by simp; omega)]

/-- State whose next instruction is `0xF033` with `V0 = 214`, `I = 0x300`. -/
def c8state : Emulator :=
  { emptyEmu with
    ram := patchRam [(0x200, 0xF0), (0x201, 0x33)]
    registers := ((List.replicate 16 0).set 0 214)
    register_i := 0x300 }

/-- Witness for C8: `V0 = 214` stores `2, 1, 4` at `I, I+1, I+2`. -/
theorem c8_witness :
    (step noKeys 0 c8state).toOption.map
      (fun m => (m.ram.getD 0x300 0, m.ram.getD 0x301 0, m.ram.getD 0x302 0)) =
      some (2, 1, 4) := by
  obtain ⟨e', hstep, h1, h2, h3⟩ :=
    c8_bcd noKeys 0 c8state (by decide) (patchRam_length _) (by decide)
      (by decide) (by decide)
  have e0 : c8state.register_i = 0x300 := by decide
  have e1 : c8state.registers.getD (xNibble c8state) 0 = 214 := by decide
  rw [e0, e1] at h1 h2 h3
  norm_num at h1 h2 h3
  rw [hstep]
  simp [Except.toOption, h1, h2, h3]

/-- Claim C9: a `2nnn` call executed with the stack full (`sp = 16`) and a
`00EE` return executed with the stack empty (`sp = 0`) are each fatal: `step`
returns the corresponding error and no successor state, so the stack pointer
never wraps. -/
theorem c9_stack (kd : Key → Bool) (rb : Nat) (e : Emulator)
    (hf : e.pc + 1 < 4096) (hst : e.stack.length = 16) :
    ((0x2000 ≤ instrAt e ∧ instrAt e ≤ 0x2FFF) → e.sp = 16 →
      step kd rb e = .error (.stackOverflow e.pc)) ∧
    (instrAt e = 0x00EE → e.sp = 0 →
      step kd rb e = .error (.stackUnderflow e.pc)) := by
  constructor
  · intro hi hsp
    exact stepEq_call_err kd rb e hf hi (by omega)
  · intro hi hsp
    exact stepEq_ret_err kd rb e hf hi hsp

/-- State with a full stack about to execute call `0x2300`. -/
def c9over : Emulator :=
  { emptyEmu with ram := patchRam [(0x200, 0x23), (0x201, 0x00)], sp := 16 }

/-- State with an empty stack about to execute `00EE`. -/
def c9under : Emulator :=
  { emptyEmu with ram := patchRam [(0x200, 0x00), (0x201, 0xEE)] }

/-- Witness for C9 at concrete full-stack and empty-stack states. -/
theorem c9_witness :
    step noKeys 0 c9over = .error (.stackOverflow 0x200) ∧
    step noKeys 0 c9under = .error (.stackUnderflow 0x200) :=
  ⟨(c9_stack noKeys 0 c9over (by decide) (by decide)).1 (by decide) (by decide),
   (c9_stack noKeys 0 c9under (by decide) (by decide)).2 (by decide) (by decide)⟩

/-- Claim C10: in `8xy4` and `8xy5`, the carry/borrow flag written to `VF` is
overwritten by the arithmetic result when `x = 0xF` (so `VF` ends holding the
wrapped sum, respectively difference), while for `x` different from `0xF` the
flag value survives in `VF`. -/
theorem c10_flag (kd : Key → Bool) (rb : Nat) (e : Emulator)
    (hf : e.pc + 1 < 4096) (hregs : e.registers.length = 16) :
    (((0x8004 ≤ instrAt e ∧ instrAt e ≤ 0x8FF4) ∧ instrAt e &&& 0xF = 0x4) →
      (xNibble e = 0xF →
        ∃ e', step kd rb e = .ok e' ∧ e'.registers.getD 0xF 0 =
          (e.registers.getD 0xF 0 + e.registers.getD (yNibble e) 0) % 256) ∧
      (xNibble e ≠ 0xF →
        ∃ e', step kd rb e = .ok e' ∧ e'.registers.getD 0xF 0 =
          (if 256 ≤ e.registers.getD (xNibble e) 0 + e.registers.getD (yNibble e) 0
           then 1 else 0))) ∧
    (((0x8005 ≤ instrAt e ∧ instrAt e ≤ 0x8FF5) ∧ instrAt e &&& 0xF = 0x5) →
      (xNibble e = 0xF →
        ∃ e', step kd rb e = .ok e' ∧ e'.registers.getD 0xF 0 =
          (e.registers.getD 0xF 0 + 256 - e.registers.getD (yNibble e) 0) % 256) ∧
      (xNibble e ≠ 0xF →
        ∃ e', step kd rb e = .ok e' ∧ e'.registers.getD 0xF 0 =
          (if e.registers.getD (xNibble e) 0 < e.registers.getD (yNibble e) 0
           then 0 else 1))) := by
  constructor
  · intro hi
    constructor
    · intro hx
      refine ⟨_, stepEq_8xy4 kd rb e hf hi, ?_⟩
      rw [hx]
      rw [getD_set_same _ (by rw [List.length_set, hregs]; norm_num)]
    · intro hx
      refine ⟨_, stepEq_8xy4 kd rb e hf hi, ?_⟩
      rw [getD_set_diff _ hx]
      exact getD_set_same _ (by rw [hregs]; norm_num)
  · intro hi
    constructor
    · intro hx
      refine ⟨_, stepEq_8xy5 kd rb e hf hi, ?_⟩
      rw [hx]
      rw [getD_set_same _ (by rw [List.length_set, hregs]; norm_num)]
    · intro hx
      refine ⟨_, stepEq_8xy5 kd rb e hf hi, ?_⟩
      rw [getD_set_diff _ hx]
      exact getD_set_same _ (by rw [hregs]; norm_num)

/-- State whose next instruction is `0x8F14` (`VF := VF + V1`), with
`VF = 200` and `V1 = 100`. -/
def c10state : Emulator :=
  { emptyEmu with
    ram := patchRam [(0x200, 0x8F), (0x201, 0x14)]
    registers := (((List.replicate 16 0).set 0xF 200).set 1 100) }

/-- Witness for C10: `8F14` with `VF = 200`, `V1 = 100` leaves
`VF = 44 = (200 + 100) mod 256`, the wrapped sum, not the carry flag. -/
theorem c10_witness :
    (step noKeys 0 c10state).toOption.map (fun m => m.registers.getD 0xF 0) =
      some 44 := by
  obtain ⟨e', hstep, hvf⟩ :=
    ((c10_flag noKeys 0 c10state (by decide) (by decide)).1 (by decide)).1
      (by decide)
  have e1 : yNibble c10state = 1 := by decide
  rw [e1] at hvf
  have e2 : c10state.registers.getD 0xF 0 = 200 := by decide
  have e3 : c10state.registers.getD 1 0 = 100 := by decide
  rw [e2, e3] at hvf
  norm_num at hvf
  rw [hstep]
  simp [Except.toOption, hvf]

theorem stepEq_ret_oob (kd : Key → Bool) (rb : Nat) (e : Emulator)
    (hf : e.pc + 1 < 4096) (hi : instrAt e = 0x00EE) (h0 : ¬ e.sp = 0)
    (hs : ¬ e.sp - 1 < e.stack.length) :
    step kd rb e = .error (.stackOob e.pc) := by
  have n1 : ¬(0x6000 ≤ instrAt e ∧ instrAt e ≤ 0x6FFF) := by omega
  have n2 : ¬(0xA000 ≤ instrAt e ∧ instrAt e ≤ 0xAFFF) := by omega
  have n3 : ¬(0xD000 ≤ instrAt e ∧ instrAt e ≤ 0xDFFF) := by omega
  have n4 : ¬(0x2000 ≤ instrAt e ∧ instrAt e ≤ 0x2FFF) := by omega
  have n5 : ¬(0x7000 ≤ instrAt e ∧ instrAt e ≤ 0x7FFF) := by omega
  unfold step execArm
  rw [if_pos hf, if_neg n1, if_neg n2, if_neg n3, if_neg n4, if_neg n5,
    if_pos hi, if_neg h0, if_neg hs]
  rfl

theorem step_ok_fetch {kd : Key → Bool} {rb : Nat} {e e' : Emulator}
    (h : step kd rb e = .ok e') : e.pc + 1 < 4096 := by
  by_cases hf : e.pc + 1 < 4096
  · exact hf
  · unfold step at h
    rw [if_neg hf] at h
    exact absurd h (by simp)

set_option maxHeartbeats 2000000 in
theorem execArm_stack_below {kd : Key → Bool} {rb : Nat} {a : Emulator}
    {p : Emulator × Bool} (h : execArm kd rb a = .ok p) (i : Nat)
    (hi : i < a.sp) : p.1.stack.getD i 0 = a.stack.getD i 0 := by
  unfold execArm at h
  by_cases c1 : 0x6000 ≤ instrAt a ∧ instrAt a ≤ 0x6FFF
  · rw [if_pos c1] at h
    injection h with h1
    subst h1
    rfl
  · rw [if_neg c1] at h
    by_cases c2 : 0xA000 ≤ instrAt a ∧ instrAt a ≤ 0xAFFF
    · rw [if_pos c2] at h
      injection h with h1
      subst h1
      rfl
    · rw [if_neg c2] at h
      by_cases c3 : 0xD000 ≤ instrAt a ∧ instrAt a ≤ 0xDFFF
      · rw [if_pos c3] at h
        by_cases cb3 : a.register_i + (instrLow a &&& 0x0F) ≤ a.ram.length
        · rw [if_pos cb3] at h
          injection h with h1
          subst h1
          rfl
        · rw [if_neg cb3] at h
          injection h
      · rw [if_neg c3] at h
        by_cases c4 : 0x2000 ≤ instrAt a ∧ instrAt a ≤ 0x2FFF
        · rw [if_pos c4] at h
          by_cases cb4 : a.sp < a.stack.length
          · rw [if_pos cb4] at h
            injection h with h1
            subst h1
            exact getD_set_diff _ (by omega)
          · rw [if_neg cb4] at h
            injection h
        · rw [if_neg c4] at h
          by_cases c5 : 0x7000 ≤ instrAt a ∧ instrAt a ≤ 0x7FFF
          · rw [if_pos c5] at h
            injection h with h1
            subst h1
            rfl
          · rw [if_neg c5] at h
            by_cases c6 : instrAt a = 0x00EE
            · rw [if_pos c6] at h
              by_cases cb6a : a.sp = 0
              · rw [if_pos cb6a] at h
                injection h
              · rw [if_neg cb6a] at h
                by_cases cb6b : a.sp - 1 < a.stack.length
                · rw [if_pos cb6b] at h
                  injection h with h1
                  subst h1
                  rfl
                · rw [if_neg cb6b] at h
                  injection h
            · rw [if_neg c6] at h
              by_cases c7 : (0xF065 ≤ instrAt a ∧ instrAt a ≤ 0xFF65) ∧ instrAt a &&& 0xFF = 0x65
              · rw [if_pos c7] at h
                by_cases cb7 : a.register_i + xNibble a < a.ram.length
                · rw [if_pos cb7] at h
                  injection h with h1
                  subst h1
                  rfl
                · rw [if_neg cb7] at h
                  injection h
              · rw [if_neg c7] at h
                by_cases c8 : (0xF033 ≤ instrAt a ∧ instrAt a ≤ 0xFF33) ∧ instrAt a &&& 0xFF = 0x33
                · rw [if_pos c8] at h
                  by_cases cb8 : a.register_i + 2 < a.ram.length
                  · rw [if_pos cb8] at h
                    injection h with h1
                    subst h1
                    rfl
                  · rw [if_neg cb8] at h
                    injection h
                · rw [if_neg c8] at h
                  by_cases c9 : (0xF029 ≤ instrAt a ∧ instrAt a ≤ 0xFF29) ∧ instrAt a &&& 0xFF = 0x29
                  · rw [if_pos c9] at h
                    injection h with h1
                    subst h1
                    rfl
                  · rw [if_neg c9] at h
                    by_cases c10 : (0xF007 ≤ instrAt a ∧ instrAt a ≤ 0xFF07) ∧ instrAt a &&& 0xFF = 0x07
                    · rw [if_pos c10] at h
                      injection h with h1
                      subst h1
                      rfl
                    · rw [if_neg c10] at h
                      by_cases c11 : (0xF015 ≤ instrAt a ∧ instrAt a ≤ 0xFF15) ∧ instrAt a &&& 0xFF = 0x15
                      · rw [if_pos c11] at h
                        injection h with h1
                        subst h1
                        rfl
                      · rw [if_neg c11] at h
                        by_cases c12 : 0x3000 ≤ instrAt a ∧ instrAt a ≤ 0x3FFF
                        · rw [if_pos c12] at h
                          injection h with h1
                          subst h1
                          split
                          · rfl
                          · rfl
                        · rw [if_neg c12] at h
                          by_cases c13 : 0x1000 ≤ instrAt a ∧ instrAt a ≤ 0x1FFF
                          · rw [if_pos c13] at h
                            injection h with h1
                            subst h1
                            rfl
                          · rw [if_neg c13] at h
                            by_cases c14 : 0xC000 ≤ instrAt a ∧ instrAt a ≤ 0xCFFF
                            · rw [if_pos c14] at h
                              injection h with h1
                              subst h1
                              rfl
                            · rw [if_neg c14] at h
                              by_cases c15 : (0xE09E ≤ instrAt a ∧ instrAt a ≤ 0xEF9E) ∧ instrAt a &&& 0xFF = 0x9E
                              · rw [if_pos c15] at h
                                by_cases cw15 : a.window = true
                                · rw [if_pos cw15] at h
                                  injection h with h1
                                  subst h1
                                  split
                                  · rfl
                                  · rfl
                                · rw [if_neg cw15] at h
                                  injection h with h1
                                  subst h1
                                  rfl
                              · rw [if_neg c15] at h
                                by_cases c16 : (0xE0A1 ≤ instrAt a ∧ instrAt a ≤ 0xEFA1) ∧ instrAt a &&& 0xFF = 0xA1
                                · rw [if_pos c16] at h
                                  by_cases cw16 : a.window = true
                                  · rw [if_pos cw16] at h
                                    injection h with h1
                                    subst h1
                                    split
                                    · rfl
                                    · rfl
                                  · rw [if_neg cw16] at h
                                    injection h with h1
                                    subst h1
                                    rfl
                                · rw [if_neg c16] at h
                                  by_cases c17 : (0x8002 ≤ instrAt a ∧ instrAt a ≤ 0x8FF2) ∧ instrAt a &&& 0xF = 0x2
                                  · rw [if_pos c17] at h
                                    injection h with h1
                                    subst h1
                                    rfl
                                  · rw [if_neg c17] at h
                                    by_cases c18 : (0x8004 ≤ instrAt a ∧ instrAt a ≤ 0x8FF4) ∧ instrAt a &&& 0xF = 0x4
                                    · rw [if_pos c18] at h
                                      injection h with h1
                                      subst h1
                                      rfl
                                    · rw [if_neg c18] at h
                                      by_cases c19 : (0x8005 ≤ instrAt a ∧ instrAt a ≤ 0x8FF5) ∧ instrAt a &&& 0xF = 0x5
                                      · rw [if_pos c19] at h
                                        injection h with h1
                                        subst h1
                                        rfl
                                      · rw [if_neg c19] at h
                                        by_cases c20 : (0x8002 ≤ instrAt a ∧ instrAt a ≤ 0x8FF0) ∧ instrAt a &&& 0xF = 0x0
                                        · rw [if_pos c20] at h
                                          injection h with h1
                                          subst h1
                                          rfl
                                        · rw [if_neg c20] at h
                                          by_cases c21 : 0x4000 ≤ instrAt a ∧ instrAt a ≤ 0x4FFF
                                          · rw [if_pos c21] at h
                                            injection h with h1
                                            subst h1
                                            split
                                            · rfl
                                            · rfl
                                          · rw [if_neg c21] at h
                                            injection h with h1
                                            subst h1
                                            rfl

theorem step_stack_below {kd : Key → Bool} {rb : Nat} {a b : Emulator}
    (h : step kd rb a = .ok b) (i : Nat) (hi : i < a.sp) :
    b.stack.getD i 0 = a.stack.getD i 0 := by
  have hf : a.pc + 1 < 4096 := step_ok_fetch h
  unfold step at h
  rw [if_pos hf] at h
  rcases hE : execArm kd rb a with err | p
  · rw [hE] at h
    exact absurd h (by simp [Except.map])
  · rw [hE] at h
    simp only [Except.map] at h
    injection h with h1
    have hb : b.stack = p.1.stack := by
      rw [← h1]
      by_cases hc : p.2 = true
      · rw [if_pos hc]
      · rw [if_neg hc]
    rw [hb]
    exact execArm_stack_below hE i hi

/-- One successful interpreter step whose source state has stack depth
strictly above `sp0`. -/
def StepAbove (sp0 : Nat) (a b : Emulator) : Prop :=
  sp0 < a.sp ∧ ∃ kd rb, step kd rb a = .ok b

/-- Any number of interpreter steps, each taken from a state of stack depth
strictly above `sp0` (the formalization of an instruction sequence during
which the call frame at index `sp0` stays live, i.e. the eventual return is
the one matching the call that pushed that frame). -/
def ReachesAbove (sp0 : Nat) : Emulator → Emulator → Prop :=
  Relation.ReflTransGen (StepAbove sp0)

theorem reaches_stack (sp0 : Nat) {a b : Emulator}
    (h : ReachesAbove sp0 a b) :
    b.stack.getD sp0 0 = a.stack.getD sp0 0 := by
  induction h with
  | refl => rfl
  | tail hab hbc ih =>
    obtain ⟨hsp, kd, rb, hstep⟩ := hbc
    rw [step_stack_below hstep sp0 hsp, ih]

/-- Claim C6: a `2nnn` call at address P (with room on the stack), followed
by any instruction sequence during which the pushed frame stays live and
which returns the stack to depth `sp+1`, followed by the matching `00EE`
return, leaves `pc = P + 2` (the instruction after the call) and restores
the stack pointer to its pre-call depth. -/
theorem c6_call_ret (e e1 e2 e3 : Emulator) (kd1 kd2 : Key → Bool)
    (rb1 rb2 : Nat)
    (hi : 0x2000 ≤ instrAt e ∧ instrAt e ≤ 0x2FFF)
    (h1 : step kd1 rb1 e = .ok e1)
    (hchain : ReachesAbove e.sp e1 e2)
    (hdepth : e2.sp = e.sp + 1)
    (hret : instrAt e2 = 0x00EE)
    (h2 : step kd2 rb2 e2 = .ok e3) :
    e3.pc = e.pc + 2 ∧ e3.sp = e.sp := by
  have hf : e.pc + 1 < 4096 := step_ok_fetch h1
  have hs : e.sp < e.stack.length := by
    by_contra hns
    rw [stepEq_call_err kd1 rb1 e hf hi hns] at h1
    exact absurd h1 (by simp)
  have he1 : e1 = { e with
      stack := e.stack.set e.sp ((e.pc + 2) % 65536)
      sp := e.sp + 1
      pc := (nnnOf e + 2) % 65536 } := by
    have hh := (stepEq_call kd1 rb1 e hf hi hs).symm.trans h1
    injection hh with hh1
    exact hh1.symm
  have hstack2 : e2.stack.getD e.sp 0 = e1.stack.getD e.sp 0 :=
    reaches_stack e.sp hchain
  have hval : e1.stack.getD e.sp 0 = (e.pc + 2) % 65536 := by
    rw [he1]
    exact getD_set_same _ hs
  have hf2 : e2.pc + 1 < 4096 := step_ok_fetch h2
  have h0 : ¬ e2.sp = 0 := by omega
  have hs2 : e2.sp - 1 < e2.stack.length := by
    by_contra hns
    rw [stepEq_ret_oob kd2 rb2 e2 hf2 hret h0 hns] at h2
    exact absurd h2 (by simp)
  have he3 : e3 = { e2 with
      sp := e2.sp - 1
      pc := e2.stack.getD (e2.sp - 1) 0 } := by
    have hh := (stepEq_ret kd2 rb2 e2 hf2 hret h0 hs2).symm.trans h2
    injection hh with hh1
    exact hh1.symm
  have hidx : e2.sp - 1 = e.sp := by omega
  have hmod : (e.pc + 2) % 65536 = e.pc + 2 := Nat.mod_eq_of_lt (by omega)
  constructor
  · rw [he3]
    show e2.stack.getD (e2.sp - 1) 0 = e.pc + 2
    rw [hidx, hstack2, hval, hmod]
  · rw [he3]
    show e2.sp - 1 = e.sp
    exact hidx

/-- State about to execute call `0x2204` at `pc = 0x200`, with the word
`0x00EE` placed at `0x206` (where the call lands, given the missing
`continue`). -/
def c6e : Emulator :=
  { emptyEmu with
    ram := patchRam [(0x200, 0x22), (0x201, 0x04), (0x206, 0x00), (0x207, 0xEE)] }

/-- `c6e` after the call: return address `0x202` pushed, `sp = 1`,
next fetch at `0x206`. -/
def c6e1 : Emulator :=
  { c6e with stack := c6e.stack.set 0 0x202, sp := 1, pc := 0x206 }

/-- `c6e1` after the `00EE` return: `sp` back to 0, `pc = 0x202`. -/
def c6e3 : Emulator :=
  { c6e1 with sp := 0, pc := 0x202 }

/-- Witness for C6: the concrete call at `0x200` followed immediately by the
matching return restores `pc = 0x202` and `sp = 0`. -/
theorem c6_witness : c6e3.pc = c6e.pc + 2 ∧ c6e3.sp = c6e.sp :=
  c6_call_ret c6e c6e1 c6e1 c6e3 noKeys noKeys 0 0 (by decide) (by rfl)
    Relation.ReflTransGen.refl (by rfl) (by decide) (by rfl)

/-- Claim C4: executing `Dxyn` with the `n` sprite rows readable at
`I..I+n` XORs each sprite bit into the pixel at
`((Vx + column) mod 64, (Vy + row) mod 32)`, leaves every other pixel
unchanged, and sets `VF` to 1 exactly when some sprite 1-bit met an
already-set destination pixel, else to 0.  Wraparound is toroidal, so a
sprite at `Vx = 63` puts its second column at screen x = 0. -/
theorem c4_draw (kd : Key → Bool) (rb : Nat) (e : Emulator)
    (hf : e.pc + 1 < 4096) (hram : e.ram.length = 4096)
    (hregs : e.registers.length = 16) (hdisp : e.display.length = 256)
    (hi : 0xD000 ≤ instrAt e ∧ instrAt e ≤ 0xDFFF)
    (hb : e.register_i + (instrLow e &&& 0x0F) ≤ 4096) :
    ∃ e', step kd rb e = .ok e' ∧
      (∀ r, r < (drawnSprite e).height → ∀ c, c < 8 →
        getPixel e'.display (((drawnSprite e).x + c) % 64)
            (((drawnSprite e).y + r) % 32) =
          getPixel e.display (((drawnSprite e).x + c) % 64)
            (((drawnSprite e).y + r) % 32) ^^^
            spriteBit (drawnSprite e).content r c) ∧
      (∀ x' y', x' < 64 → y' < 32 →
        (∀ r, r < (drawnSprite e).height → ∀ c, c < 8 →
          ¬(x' = ((drawnSprite e).x + c) % 64 ∧
            y' = ((drawnSprite e).y + r) % 32)) →
        getPixel e'.display x' y' = getPixel e.display x' y') ∧
      (e'.registers.getD 0xF 0 = 1 ↔
        ∃ r, r < (drawnSprite e).height ∧ ∃ c, c < 8 ∧
          getPixel e.display (((drawnSprite e).x + c) % 64)
            (((drawnSprite e).y + r) % 32) = 1 ∧
          spriteBit (drawnSprite e).content r c = 1) ∧
      (e'.registers.getD 0xF 0 = 0 ∨ e'.registers.getD 0xF 0 = 1) := by
  have hh : (drawnSprite e).height ≤ 32 := by
    show instrLow e &&& 0x0F ≤ 32
    have hx : instrLow e &&& 0x0F ≤ 0x0F := Nat.and_le_right
    omega
  have hw : (drawnSprite e).width ≤ 64 := by
    show (8 : Nat) ≤ 64
    norm_num
  refine ⟨_, stepEq_draw kd rb e hf hi (by omega), ?_, ?_, ?_, ?_⟩
  · intro r hr c hc
    have hcov := spriteFold_cov (drawnSprite e) (e.display, 0)
      (drawnSprite e).height hdisp hh hw r c hr hc
    rw [wrap64, wrap32] at hcov
    exact hcov
  · intro x' y' hx' hy' hun
    exact spriteFold_untouched (drawnSprite e) (e.display, 0)
      (drawnSprite e).height hdisp hh x' y' hx' hy'
      (fun r hr c hc hcon => hun r hr c hc
        ⟨hcon.1.trans (wrap64 _), hcon.2.trans (wrap32 _)⟩)
  · have hvf := spriteFold_vf_iff (drawnSprite e) (e.display, 0)
      (drawnSprite e).height hdisp hh hw
    simp only [wrap64, wrap32] at hvf
    have hget : ({ load_sprite e (drawnSprite e) with
        pc := (e.pc + 2) % 65536 } : Emulator).registers.getD 0xF 0 =
        (spriteFold (drawnSprite e) (e.display, 0) (drawnSprite e).height).2 :=
      getD_set_same _ (by rw [hregs]; norm_num)
    rw [hget, hvf]
    constructor
    · rintro (h01 | hEx)
      · exact absurd h01 (by norm_num)
      · exact hEx
    · intro hEx
      exact Or.inr hEx
  · have hget : ({ load_sprite e (drawnSprite e) with
        pc := (e.pc + 2) % 65536 } : Emulator).registers.getD 0xF 0 =
        (spriteFold (drawnSprite e) (e.display, 0) (drawnSprite e).height).2 :=
      getD_set_same _ (by rw [hregs]; norm_num)
    rw [hget]
    rcases spriteFold_vf_cases (drawnSprite e) (e.display, 0)
        (drawnSprite e).height with hc2 | hc2
    · exact Or.inl hc2
    · exact Or.inr hc2

/-- State about to draw a 1-row sprite `0xC0` at `(V0, V1) = (63, 0)`,
instruction `0xD011`, `I = 0x300`. -/
def c4state : Emulator :=
  { emptyEmu with
    ram := patchRam [(0x200, 0xD0), (0x201, 0x11), (0x300, 0xC0)]
    registers := ((List.replicate 16 0).set 0 63)
    register_i := 0x300 }

/-- Witness for C4: drawing `0xC0` at `Vx = 63` puts the sprite's second
column at screen x = 0 (toroidal wrap). -/
theorem c4_witness :
    ∃ e', step noKeys 0 c4state = .ok e' ∧ getPixel e'.display 0 0 = 1 := by
  obtain ⟨e', hstep, hcov, -, -, -⟩ :=
    c4_draw noKeys 0 c4state (by decide) (patchRam_length _) (by decide)
      (by decide) (by decide) (by decide)
  refine ⟨e', hstep, ?_⟩
  have h := hcov 0 (by decide) 1 (by decide)
  have i1 : ((drawnSprite c4state).x + 1) % 64 = 0 := by decide
  have i2 : ((drawnSprite c4state).y + 0) % 32 = 0 := by decide
  rw [i1, i2] at h
  have i3 : getPixel c4state.display 0 0 ^^^
      spriteBit (drawnSprite c4state).content 0 1 = 1 := by decide
  rw [h, i3]

/-- Claim C5 (amended): drawing the identical sprite twice at the same
position returns every pixel to its pre-draw state, and the second draw
leaves `VF = 1` exactly when the sprite has a 1-bit at a position whose
pixel was clear before the first draw (those are the pixels the first draw
set; 1-bits landing on originally-set pixels were cleared by the first draw
and cause no second-draw collision), else `VF = 0`. -/
theorem c5_amended (e : Emulator) (spr : Sprite)
    (hdisp : e.display.length = 256) (hregs : e.registers.length = 16)
    (hw : spr.width ≤ 8) (hh : spr.height ≤ 32) :
    (∀ x' y', x' < 64 → y' < 32 →
      getPixel (load_sprite (load_sprite e spr) spr).display x' y' =
        getPixel e.display x' y') ∧
    ((load_sprite (load_sprite e spr) spr).registers.getD 0xF 0 = 1 ↔
      ∃ r, r < spr.height ∧ ∃ c, c < spr.width ∧
        spriteBit spr.content r c = 1 ∧
        getPixel e.display ((spr.x + c) % 64) ((spr.y + r) % 32) = 0) ∧
    ((load_sprite (load_sprite e spr) spr).registers.getD 0xF 0 = 0 ∨
     (load_sprite (load_sprite e spr) spr).registers.getD 0xF 0 = 1) := by
  have hw64 : spr.width ≤ 64 := by omega
  have hlen1 : ((spriteFold spr (e.display, 0) spr.height).1).length = 256 := by
    rw [spriteFold_len]
    exact hdisp
  refine ⟨?_, ?_, ?_⟩
  · intro x' y' hx' hy'
    by_cases hcov : ∃ r, r < spr.height ∧ ∃ c, c < spr.width ∧
        x' = (spr.x + c) % 256 % 64 ∧ y' = (spr.y + r) % 256 % 32
    · obtain ⟨r, hr, c, hc, hxe, hye⟩ := hcov
      subst hxe
      subst hye
      have h2 : getPixel (load_sprite (load_sprite e spr) spr).display
          ((spr.x + c) % 256 % 64) ((spr.y + r) % 256 % 32) =
          getPixel (spriteFold spr (e.display, 0) spr.height).1
            ((spr.x + c) % 256 % 64) ((spr.y + r) % 256 % 32) ^^^
            spriteBit spr.content r c :=
        spriteFold_cov spr ((spriteFold spr (e.display, 0) spr.height).1, 0)
          spr.height hlen1 hh hw64 r c hr hc
      have h1 := spriteFold_cov spr (e.display, 0) spr.height hdisp hh hw64
        r c hr hc
      rw [h2, h1, Nat.xor_assoc, Nat.xor_self, Nat.xor_zero]
    · have hnc : ∀ r, r < spr.height → ∀ c, c < spr.width →
          ¬(x' = (spr.x + c) % 256 % 64 ∧ y' = (spr.y + r) % 256 % 32) :=
        fun r hr c hc hcon => hcov ⟨r, hr, c, hc, hcon.1, hcon.2⟩
      have h2 : getPixel (load_sprite (load_sprite e spr) spr).display x' y' =
          getPixel (spriteFold spr (e.display, 0) spr.height).1 x' y' :=
        spriteFold_untouched spr
          ((spriteFold spr (e.display, 0) spr.height).1, 0) spr.height
          hlen1 hh x' y' hx' hy' hnc
      have h1 := spriteFold_untouched spr (e.display, 0) spr.height hdisp hh
        x' y' hx' hy' hnc
      rw [h2, h1]
  · have hvf2 : (load_sprite (load_sprite e spr) spr).registers.getD 0xF 0 =
        (spriteFold spr ((spriteFold spr (e.display, 0) spr.height).1, 0)
          spr.height).2 :=
      getD_set_same _ (by simp only [load_sprite, List.length_set, hregs]; norm_num)
    rw [hvf2]
    rw [spriteFold_vf_iff spr ((spriteFold spr (e.display, 0) spr.height).1, 0)
      spr.height hlen1 hh hw64]
    constructor
    · rintro (h01 | ⟨r, hr, c, hc, hpix, hbit⟩)
      · exact absurd h01 (by norm_num)
      · refine ⟨r, hr, c, hc, hbit, ?_⟩
        have h1 := spriteFold_cov spr (e.display, 0) spr.height hdisp hh hw64
          r c hr hc
        rw [h1, hbit] at hpix
        have hle := getPixel_le_one e.display ((spr.x + c) % 256 % 64)
          ((spr.y + r) % 256 % 32)
        rcases Nat.le_one_iff_eq_zero_or_eq_one.mp hle with h0 | h0
        · rw [← wrap64, ← wrap32]
          exact h0
        · rw [h0] at hpix
          exact absurd hpix (by decide)
    · rintro ⟨r, hr, c, hc, hbit, hpix0⟩
      refine Or.inr ⟨r, hr, c, hc, ?_, hbit⟩
      have h1 := spriteFold_cov spr (e.display, 0) spr.height hdisp hh hw64
        r c hr hc
      rw [h1, hbit, wrap64, wrap32, hpix0]
      decide
  · have hvf2 : (load_sprite (load_sprite e spr) spr).registers.getD 0xF 0 =
        (spriteFold spr ((spriteFold spr (e.display, 0) spr.height).1, 0)
          spr.height).2 :=
      getD_set_same _ (by simp only [load_sprite, List.length_set, hregs]; norm_num)
    rw [hvf2]
    rcases spriteFold_vf_cases spr
        ((spriteFold spr (e.display, 0) spr.height).1, 0) spr.height with
      hc2 | hc2
    · exact Or.inl hc2
    · exact Or.inr hc2

/-- A 1-row sprite whose single 1-bit is its leftmost pixel. -/
def c5spr : Sprite :=
  { x := 0, y := 0, height := 1, width := 8, content := [0x80] }

/-- State whose display is entirely set. -/
def c5state : Emulator :=
  { emptyEmu with display := List.replicate 256 0xFF }

/-- Claim C5 counterexample: on an all-set framebuffer, the sprite `0x80`
has a nonzero bit, yet after drawing it twice at the same position the
second draw leaves `VF = 0` (the first draw cleared the pixel, so the second
XOR hits a clear pixel and records no collision), contradicting the claim
that the second draw's `VF` is 1 whenever the sprite has any nonzero bit. -/
theorem c5_counterexample :
    spriteBit c5spr.content 0 0 = 1 ∧
    (load_sprite (load_sprite c5state c5spr) c5spr).registers.getD 0xF 0 = 0 := by
  constructor
  · decide
  · decide

/-- Witness for C5's amended theorem: on an all-clear framebuffer the double
draw of `0x80` restores the pixel at (0,0) and the second draw reports a
collision (`VF = 1`) because the first draw set that pixel. -/
theorem c5_witness :
    getPixel (load_sprite (load_sprite emptyEmu c5spr) c5spr).display 0 0 =
      getPixel emptyEmu.display 0 0 ∧
    (load_sprite (load_sprite emptyEmu c5spr) c5spr).registers.getD 0xF 0 = 1 := by
  obtain ⟨hA, hB, hC⟩ :=
    c5_amended emptyEmu c5spr (by decide) (by decide) (by decide) (by decide)
  refine ⟨hA 0 0 (by norm_num) (by norm_num), ?_⟩
  exact hB.mpr ⟨0, by decide, 0, by decide, by decide, by decide⟩
